import Mathlib

/-!
Verification development for the ChatOpsAnything errbot plugin
(`chatops-anything.py`).  The Python code is shallowly embedded: paths
are lists of components, the filesystem is explicit data, dicts are
association lists, fallible code returns `Except`, and external effects
(HTTP responses, subprocess spawning) are parameters of the embedded
functions.
-/

namespace ChatOpsAnything

/-- A filesystem path, as its list of components below the root
(so `[]` is `/`, `["tmp", "x"]` is `/tmp/x`).  Paths are assumed
normalized and absolute, which is how the plugin uses them. -/
abbrev FsPath := List String

/-- `pathlib.Path.parents`: the proper ancestors of a path.
`Path("/tmp/x/y").parents` contains exactly `/tmp/x`, `/tmp` and `/`;
the path itself is not among its parents.  Modelled as the list of all
proper prefixes of the component list. -/
def pathParents (p : FsPath) : List FsPath :=
  (List.range p.length).map (fun k => p.take k)

/-- The set of nodes existing on the filesystem, as a list of paths. -/
abbrev FsState := List FsPath

/-- `shutil.rmtree(path, ignore_errors=True)`: removes the node at `p`
and every node below it; with `ignore_errors` nothing is raised. -/
def rmtree (fs : FsState) (p : FsPath) : FsState :=
  fs.filter (fun q => ¬ p <+: q)

/-- `_cleanup_tempdir` (lines 577-597): computes the system temp root,
deletes the tree at `path` when that root is among the parents of
`path`, otherwise logs an error and deletes nothing.  `tempRoot` models
`Path(gettempdir())`; the returned `Bool` is `true` when the refusal
error was logged. -/
def cleanup_tempdir (tempRoot : FsPath) (fs : FsState) (path : FsPath) :
    FsState × Bool :=
  if tempRoot ∈ pathParents path then
    (rmtree fs path, false)
  else
    (fs, true)

/-- A parent of `p` is exactly a strict ancestor: a proper prefix of
`p`s component list. -/
theorem mem_pathParents_iff (a p : FsPath) :
    a ∈ pathParents p ↔ (a <+: p ∧ a ≠ p) := by
  simp only [pathParents, List.mem_map, List.mem_range]
  constructor
  · rintro ⟨k, hk, rfl⟩
    refine ⟨List.take_prefix k p, ?_⟩
    intro hEq
    have hlen := congrArg List.length hEq
    simp only [List.length_take] at hlen
    omega
  · rintro ⟨hpre, hne⟩
    refine ⟨a.length, ?_, ?_⟩
    · rcases Nat.lt_or_ge a.length p.length with h | h
      · exact h
      · exact absurd (List.IsPrefix.eq_of_length hpre
          (Nat.le_antisymm hpre.length_le h)) hne
    · exact (List.prefix_iff_eq_take.mp hpre).symm

/-- C1: `_cleanup_tempdir(p)` deletes the tree at `p` exactly when the
system temp root is a strict ancestor of `p`; for every other `p` the
filesystem is returned untouched and the refusal is logged instead of
raised (the function is total: no exception). -/
theorem cleanup_tempdir_safety (tempRoot p : FsPath) (fs : FsState) :
    ((tempRoot <+: p ∧ tempRoot ≠ p) →
        cleanup_tempdir tempRoot fs p = (rmtree fs p, false)) ∧
    (¬ (tempRoot <+: p ∧ tempRoot ≠ p) →
        cleanup_tempdir tempRoot fs p = (fs, true)) := by
  constructor
  · intro h
    have : tempRoot ∈ pathParents p := (mem_pathParents_iff tempRoot p).mpr h
    simp [cleanup_tempdir, this]
  · intro h
    have : tempRoot ∉ pathParents p := fun hmem =>
      h ((mem_pathParents_iff tempRoot p).mp hmem)
    simp [cleanup_tempdir, this]

/-- C1 witness: concrete instances of both branches.  `/tmp/work` is
deleted below `/tmp` (the file `/etc/passwd` survives); asked to delete
`/etc` itself, the call refuses and the filesystem is unchanged. -/
theorem cleanup_tempdir_safety_witness :
    cleanup_tempdir ["tmp"]
        [["tmp", "work"], ["tmp", "work", "f"], ["etc", "passwd"]]
        ["tmp", "work"] = ([["etc", "passwd"]], false) ∧
    cleanup_tempdir ["tmp"]
        [["tmp", "work"], ["etc", "passwd"]] ["etc"] =
      ([["tmp", "work"], ["etc", "passwd"]], true) := by
  constructor
  · rw [(cleanup_tempdir_safety ["tmp"] ["tmp", "work"]
      [["tmp", "work"], ["tmp", "work", "f"], ["etc", "passwd"]]).1 (by decide)]
    decide
  · exact (cleanup_tempdir_safety ["tmp"] ["etc"]
      [["tmp", "work"], ["etc", "passwd"]]).2 (by decide)

/-! ### Executable scanner (`_get_all_execs_in_path`, lines 519-544) -/

/-- `stat.S_IEXEC` (owner execute bit, `0o100`). -/
def S_IEXEC : Nat := 64

/-- `stat.S_IXGRP` (group execute bit, `0o010`). -/
def S_IXGRP : Nat := 8

/-- `stat.S_IXOTH` (other execute bit, `0o001`). -/
def S_IXOTH : Nat := 1

/-- One direct child of the scanned directory: `fs_item.is_file()`
(true for a regular file, following symlinks) and its stat mode. -/
structure FsItem where
  name : String
  is_file : Bool
  mode : Nat
  deriving DecidableEq, Repr

/-- `_get_all_execs_in_path`: iterates the direct children of the path
(`path.iterdir()` is non-recursive) and yields every child that is a
file whose mode has at least one of the execute bits
`S_IEXEC | S_IXGRP | S_IXOTH` set. -/
def get_all_execs_in_path (children : List FsItem) : List FsItem :=
  let executable := S_IEXEC ||| S_IXGRP ||| S_IXOTH
  children.filter (fun fs_item => fs_item.is_file && (fs_item.mode &&& executable != 0))

theorem testBit_73 (i : Nat) :
    Nat.testBit 73 i = true ↔ (i = 0 ∨ i = 3 ∨ i = 6) := by
  rcases Nat.lt_or_ge i 7 with h | h
  · interval_cases i <;> simp <;> decide
  · rw [Nat.testBit_eq_false_of_lt (by calc 73 < 2 ^ 7 := by norm_num
      _ ≤ 2 ^ i := Nat.pow_le_pow_right (by norm_num) h)]
    simp
    omega

theorem and_73_ne_zero (n : Nat) :
    (n &&& 73 ≠ 0) ↔ (n.testBit 6 ∨ n.testBit 3 ∨ n.testBit 0) := by
  constructor
  · intro h
    by_contra hc
    push_neg at hc
    apply h
    apply Nat.eq_of_testBit_eq
    intro i
    simp only [Nat.testBit_and, Nat.zero_testBit, Bool.and_eq_false_iff]
    rcases Decidable.em (i = 0 ∨ i = 3 ∨ i = 6) with hi | hi
    · left
      rcases hi with rfl | rfl | rfl
      · simpa using hc.2.2
      · simpa using hc.2.1
      · simpa using hc.1
    · right
      rw [← Bool.not_eq_true, testBit_73]
      exact hi
  · intro h h0
    rcases h with h | h | h
    · have := Nat.testBit_and n 73 6
      rw [h0, Nat.zero_testBit, h] at this
      simp only [Bool.true_and] at this
      exact absurd this (by decide)
    · have := Nat.testBit_and n 73 3
      rw [h0, Nat.zero_testBit, h] at this
      simp only [Bool.true_and] at this
      exact absurd this (by decide)
    · have := Nat.testBit_and n 73 0
      rw [h0, Nat.zero_testBit, h] at this
      simp only [Bool.true_and] at this
      exact absurd this (by decide)

/-- C5: the scanner yields exactly the direct children that are regular
files with at least one of the owner, group or other execute bits set:
an item is in the output iff it is a child, is a file, and bit 6 (owner
execute), bit 3 (group execute) or bit 0 (other execute) of its mode is
set.  Directories and files with none of the three bits are never
yielded. -/
theorem get_all_execs_in_path_correct (children : List FsItem) (f : FsItem) :
    f ∈ get_all_execs_in_path children ↔
      (f ∈ children ∧ f.is_file = true ∧
        (f.mode.testBit 6 ∨ f.mode.testBit 3 ∨ f.mode.testBit 0)) := by
  have h73 : (S_IEXEC ||| S_IXGRP ||| S_IXOTH) = 73 := by decide
  simp only [get_all_execs_in_path, h73, List.mem_filter, Bool.and_eq_true,
    bne_iff_ne, ne_eq, and_assoc]
  constructor
  · rintro ⟨hm, hfile, hbits⟩
    exact ⟨hm, hfile, (and_73_ne_zero f.mode).mp hbits⟩
  · rintro ⟨hm, hfile, hbits⟩
    exact ⟨hm, hfile, (and_73_ne_zero f.mode).mpr hbits⟩

/-- C5 witness: a directory holding an owner-executable file, a
group-executable file, a non-executable file and an executable-looking
directory; only the two executable files are yielded. -/
theorem get_all_execs_in_path_witness :
    (⟨"a", true, 493⟩ : FsItem) ∈ get_all_execs_in_path
        [⟨"a", true, 493⟩, ⟨"b", true, 416⟩, ⟨"g", true, 8⟩, ⟨"d", false, 493⟩] ∧
    ((⟨"a", true, 493⟩ : FsItem) ∈
        [⟨"a", true, 493⟩, ⟨"b", true, 416⟩, ⟨"g", true, 8⟩, ⟨"d", false, 493⟩] ∧
      true = true ∧
      ((493 : Nat).testBit 6 ∨ (493 : Nat).testBit 3 ∨ (493 : Nat).testBit 0)) := by
  have h := get_all_execs_in_path_correct
    [⟨"a", true, 493⟩, ⟨"b", true, 416⟩, ⟨"g", true, 8⟩, ⟨"d", false, 493⟩]
    ⟨"a", true, 493⟩
  have h2 : ((⟨"a", true, 493⟩ : FsItem) ∈
      [(⟨"a", true, 493⟩ : FsItem), ⟨"b", true, 416⟩, ⟨"g", true, 8⟩, ⟨"d", false, 493⟩] ∧
      (true = true) ∧
      ((493 : Nat).testBit 6 ∨ (493 : Nat).testBit 3 ∨ (493 : Nat).testBit 0)) := by
    refine ⟨by decide, rfl, ?_⟩
    left
    decide
  exact ⟨h.mpr h2, h2⟩

/-! ### Path validator (`_validate_path`, lines 469-517) -/

/-- The facts about a path that `_validate_path` queries, in the order
the code queries them: `pathlib.Path` predicates, whether the first
`iterdir().__next__()` raises `PermissionError`, and whether
`os.access(path, os.W_OK)` holds. -/
structure PathInfo where
  exists_fs : Bool
  is_file : Bool
  is_fifo : Bool
  is_block_device : Bool
  is_char_device : Bool
  is_socket : Bool
  iterdir_permission_denied : Bool
  writable : Bool
  deriving DecidableEq, Repr

/-- `_validate_path(path, writeable)`: raises `ValidationException`
(modelled as `Except.error` with the message) on the first failing
check, in source order; an empty directory is fine (`StopIteration` is
swallowed); returns `True` when all checks pass. -/
def validate_path (p : PathInfo) (writeable : Bool) : Except String Bool :=
  if ¬ p.exists_fs then .error "does not exist on the filesystem"
  else if p.is_file then .error "is a file and not a path"
  else if p.is_fifo then .error "points to a FIFO"
  else if p.is_block_device then .error "is a block device"
  else if p.is_char_device then .error "is a character device"
  else if p.is_socket then .error "is a socket"
  else if p.iterdir_permission_denied then .error "Unable to read"
  else if writeable ∧ ¬ p.writable then .error "is not writeable"
  else .ok true

/-- True exactly on `Except.ok` results. -/
def exceptOk {ε α : Type} : Except ε α → Bool
  | .ok _ => true
  | .error _ => false

/-- C6: `_validate_path` raises a validation error iff the path does
not exist, or is a regular file, FIFO, block device, character device
or socket, or enumerating it hits a permission error, or write access
was demanded and is absent; consequently an existing, empty, readable
directory (all failure indicators off) validates, returning `true`. -/
theorem validate_path_correct (p : PathInfo) (writeable : Bool) :
    (exceptOk (validate_path p writeable) = false ↔
      (p.exists_fs = false ∨ p.is_file = true ∨ p.is_fifo = true ∨
        p.is_block_device = true ∨ p.is_char_device = true ∨
        p.is_socket = true ∨ p.iterdir_permission_denied = true ∨
        (writeable = true ∧ p.writable = false))) ∧
    (exceptOk (validate_path p writeable) = true →
      validate_path p writeable = .ok true) := by
  rcases p with ⟨e, f, fi, b, c, s, pd, w⟩
  cases e <;> cases f <;> cases fi <;> cases b <;> cases c <;> cases s <;>
    cases pd <;> cases w <;> cases writeable <;>
    simp [validate_path, exceptOk]

/-- C6 witness: an existing, empty, readable, non-special directory
validates successfully (no error raised, result `True`), while a
missing path is rejected. -/
theorem validate_path_witness :
    validate_path ⟨true, false, false, false, false, false, false, false⟩ false =
      .ok true ∧
    exceptOk (validate_path
      ⟨false, false, false, false, false, false, false, true⟩ true) = false := by
  constructor
  · exact (validate_path_correct
      ⟨true, false, false, false, false, false, false, false⟩ false).2 (by decide)
  · exact (validate_path_correct
      ⟨false, false, false, false, false, false, false, true⟩ true).1.mpr
      (by left; rfl)

/-! ### Temp dir creation (`_create_temp_dir`, lines 561-575) -/

/-- Kind of a filesystem node, for the typed filesystem used by the
mkdir model. -/
inductive NodeKind where
  | dir
  | file
  deriving DecidableEq, Repr

/-- A typed filesystem: which paths exist and what kind of node sits
at each.  Later entries are shadowed by earlier ones in lookups. -/
abbrev TypedFs := List (FsPath × NodeKind)

/-- Lookup of a path in the typed filesystem. -/
def tfsLookup : TypedFs → FsPath → Option NodeKind
  | [], _ => none
  | (q, k) :: rest, r => if q = r then some k else tfsLookup rest r

/-- All prefixes of a path, from the root `[]` up to the path itself. -/
def pathInits (p : FsPath) : List FsPath :=
  (List.range (p.length + 1)).map (fun k => p.take k)

/-- `Path.mkdir(parents=True, exist_ok=True)`: fails when some prefix
of `p` (including `p` itself) already exists as a regular file
(`FileExistsError` / `NotADirectoryError`); otherwise creates every
missing prefix as a directory and succeeds, silently accepting the
prefixes that already are directories. -/
def mkdirParentsExistOk (fs : TypedFs) (p : FsPath) : Except Unit TypedFs :=
  if (pathInits p).any (fun q => tfsLookup fs q = some NodeKind.file) then
    .error ()
  else
    .ok (fs ++ ((pathInits p).filter (fun q => tfsLookup fs q = none)).map
      (fun q => (q, NodeKind.dir)))

/-- `_create_temp_dir`: builds `<gettempdir()>/errbot-copsa-<HASH>`
(the instance tag `HASH` is fixed at plugin `__init__`, line 34) and
calls `mkdir(parents=True, exist_ok=True)` on it, returning the path. -/
def create_temp_dir (tempRoot : FsPath) (hash : String) (fs : TypedFs) :
    Except Unit (FsPath × TypedFs) :=
  let tmp := tempRoot ++ [("errbot-copsa-" ++ hash)]
  match mkdirParentsExistOk fs tmp with
  | .error e => .error e
  | .ok fs2 => .ok (tmp, fs2)

theorem tfsLookup_append (fs1 fs2 : TypedFs) (r : FsPath) :
    tfsLookup (fs1 ++ fs2) r =
      ((tfsLookup fs1 r).elim (tfsLookup fs2 r) (fun k => some k)) := by
  induction fs1 with
  | nil => simp [tfsLookup]
  | cons hd tl ih =>
    rcases hd with ⟨q, k⟩
    by_cases hq : q = r <;> simp [tfsLookup, hq, ih]

theorem tfsLookup_map_dir (l : List FsPath) (r : FsPath) :
    tfsLookup (l.map (fun q => (q, NodeKind.dir))) r =
      if r ∈ l then some NodeKind.dir else none := by
  induction l with
  | nil => simp [tfsLookup]
  | cons hd tl ih =>
    by_cases hq : hd = r
    · subst hq
      simp [tfsLookup, ih]
    · simp only [List.map_cons, tfsLookup, hq, if_false, ih, List.mem_cons]
      have : ¬ r = hd := fun h => hq h.symm
      simp [this]

theorem mkdir_idempotent (fs fs2 : TypedFs) (p : FsPath)
    (h : mkdirParentsExistOk fs p = .ok fs2) :
    mkdirParentsExistOk fs2 p = .ok fs2 := by
  rw [mkdirParentsExistOk] at h
  have hany : ((pathInits p).any
      (fun q => tfsLookup fs q = some NodeKind.file)) = false := by
    by_contra hc
    rw [Bool.not_eq_false] at hc
    rw [hc] at h
    simp at h
  rw [hany] at h
  simp only [Bool.false_eq_true, if_false, Except.ok.injEq] at h
  have hfull : ∀ q ∈ pathInits p, tfsLookup fs2 q = some NodeKind.dir ∨
      (tfsLookup fs2 q = tfsLookup fs q ∧ tfsLookup fs q ≠ none) := by
    intro q hq
    subst h
    rw [tfsLookup_append, tfsLookup_map_dir]
    match hcase : tfsLookup fs q with
    | some k => right; simp [hcase]
    | none =>
      left
      simp [List.mem_filter, hq, hcase]
  rw [List.any_eq_false] at hany
  have hnofile : ∀ q ∈ pathInits p, ¬ tfsLookup fs2 q = some NodeKind.file := by
    intro q hq hfile
    rcases hfull q hq with hd | ⟨heq, _⟩
    · rw [hd] at hfile; exact NodeKind.noConfusion (Option.some.inj hfile)
    · rw [heq] at hfile
      exact absurd hfile (by simpa using hany q hq)
  have hnone : ∀ q ∈ pathInits p, tfsLookup fs2 q ≠ none := by
    intro q hq
    rcases hfull q hq with hd | ⟨heq2, hne2⟩
    · rw [hd]; exact fun hc => Option.noConfusion hc
    · intro hc
      rw [heq2] at hc; exact hne2 hc
  rw [mkdirParentsExistOk]
  have hany2 : (pathInits p).any
      (fun q => tfsLookup fs2 q = some NodeKind.file) = false := by
    rw [List.any_eq_false]
    intro q hq
    simpa using hnofile q hq
  rw [hany2]
  simp only [Bool.false_eq_true, if_false, Except.ok.injEq]
  have hfilter : (pathInits p).filter (fun q => tfsLookup fs2 q = none) = [] := by
    rw [List.filter_eq_nil_iff]
    intro q hq
    simpa using hnone q hq
  rw [hfilter]
  simp

/-- C8: within one plugin instance the tag `HASH` is fixed, so a second
call to `_create_temp_dir` returns exactly the path the first call
returned, does not raise even though the directory already exists
(`exist_ok=True`), and leaves the filesystem as the first call left
it. -/
theorem create_temp_dir_idempotent (tempRoot : FsPath) (hash : String)
    (fs fs2 : TypedFs) (p : FsPath)
    (h : create_temp_dir tempRoot hash fs = .ok (p, fs2)) :
    create_temp_dir tempRoot hash fs2 = .ok (p, fs2) := by
  rw [create_temp_dir] at h ⊢
  match hmk : mkdirParentsExistOk fs (tempRoot ++ [("errbot-copsa-" ++ hash)]) with
  | .error e => rw [hmk] at h; exact Except.noConfusion h
  | .ok fsx =>
    rw [hmk] at h
    simp only [Except.ok.injEq, Prod.mk.injEq] at h
    rcases h with ⟨hp, hfs⟩
    subst hfs
    rw [mkdir_idempotent fs fsx _ hmk]
    simp [hp]

/-- C8 witness: on an initially empty filesystem under temp root
`/tmp`, the first call creates `/tmp/errbot-copsa-abc` and the second
call succeeds and returns the same path and filesystem. -/
theorem create_temp_dir_idempotent_witness :
    create_temp_dir ["tmp"] "abc" []
        = .ok (["tmp", "errbot-copsa-abc"],
            [([], NodeKind.dir), (["tmp"], NodeKind.dir),
              (["tmp", "errbot-copsa-abc"], NodeKind.dir)]) ∧
    create_temp_dir ["tmp"] "abc"
        [([], NodeKind.dir), (["tmp"], NodeKind.dir),
          (["tmp", "errbot-copsa-abc"], NodeKind.dir)]
        = .ok (["tmp", "errbot-copsa-abc"],
            [([], NodeKind.dir), (["tmp"], NodeKind.dir),
              (["tmp", "errbot-copsa-abc"], NodeKind.dir)]) := by
  have h1 : create_temp_dir ["tmp"] "abc" []
      = .ok (["tmp", "errbot-copsa-abc"],
          [([], NodeKind.dir), (["tmp"], NodeKind.dir),
            (["tmp", "errbot-copsa-abc"], NodeKind.dir)]) := by rfl
  exact ⟨h1, create_temp_dir_idempotent ["tmp"] "abc" _ _ _ h1⟩

/-! ### Python dictionaries as association lists -/

/-- Python dict lookup (`d[k]` / `k in d`), first binding wins; real
dicts have unique keys, an invariant stated as `dkeysNodup` where a
proof needs it. -/
def alookup {α : Type} : List (String × α) → String → Option α
  | [], _ => none
  | (k2, v2) :: rest, k => if k2 = k then some v2 else alookup rest k

/-- Python dict assignment `d[k] = v`: replaces the binding in place
when the key exists, appends it otherwise (insertion order kept). -/
def ainsert {α : Type} : List (String × α) → String → α → List (String × α)
  | [], k, v => [(k, v)]
  | (k2, v2) :: rest, k, v =>
    if k2 = k then (k, v) :: rest else (k2, v2) :: ainsert rest k v

/-- Removal part of Python `d.pop(k, None)`. -/
def aremove {α : Type} : List (String × α) → String → List (String × α)
  | [], _ => []
  | (k2, v2) :: rest, k =>
    if k2 = k then aremove rest k else (k2, v2) :: aremove rest k

/-- The keys of a dict are pairwise distinct (true of every real
Python dict). -/
abbrev dkeysNodup {α : Type} (d : List (String × α)) : Prop :=
  (d.map Prod.fst).Nodup

/-- A config entry as parsed from YAML/JSON: a dict with string
values. -/
abbrev PyDict := List (String × String)

theorem alookup_ainsert {α : Type} (d : List (String × α)) (k v k2) :
    alookup (ainsert d k v) k2 = if k = k2 then some v else alookup d k2 := by
  induction d with
  | nil => by_cases h : k = k2 <;> simp [ainsert, alookup, h]
  | cons hd tl ih =>
    rcases hd with ⟨k3, v3⟩
    by_cases h3 : k3 = k
    · subst h3
      by_cases h : k3 = k2 <;> simp [ainsert, alookup, h]
    · by_cases h : k3 = k2
      · subst h
        have : ¬ k = k3 := fun hc => h3 hc.symm
        simp [ainsert, alookup, h3, this]
      · simp [ainsert, alookup, h3, h, ih]

theorem alookup_aremove {α : Type} (d : List (String × α)) (k k2 : String)
    (h : k2 ≠ k) : alookup (aremove d k) k2 = alookup d k2 := by
  induction d with
  | nil => simp [aremove, alookup]
  | cons hd tl ih =>
    rcases hd with ⟨k3, v3⟩
    by_cases h3 : k3 = k
    · subst h3
      have hne : ¬ k3 = k2 := fun hc => h hc.symm
      simp [aremove, alookup, ih, hne]
    · by_cases hk2 : k3 = k2 <;> simp [aremove, alookup, h3, hk2, h, ih]

theorem alookup_aremove_self {α : Type} (d : List (String × α)) (k : String) :
    alookup (aremove d k) k = none := by
  induction d with
  | nil => simp [aremove, alookup]
  | cons hd tl ih =>
    rcases hd with ⟨k3, v3⟩
    by_cases h3 : k3 = k
    · simp [aremove, alookup, h3, ih]
    · simp [aremove, alookup, h3, ih]

theorem alookup_eq_none_of_not_mem {α : Type} (d : List (String × α)) (k : String)
    (h : k ∉ d.map Prod.fst) : alookup d k = none := by
  induction d with
  | nil => simp [alookup]
  | cons hd tl ih =>
    rcases hd with ⟨k3, v3⟩
    simp only [List.map_cons, List.mem_cons] at h
    push_neg at h
    have : k3 ≠ k := fun hc => h.1 hc.symm
    simp [alookup, this, ih h.2]

/-- `merge_two_dicts` (lines 245-257): `z = deepcopy(x); z.update(y)`,
returning the merged copy; `update` assigns every binding of `y` into
the copy of `x`. -/
def merge_two_dicts (x y : PyDict) : PyDict :=
  y.foldl (fun z kv => ainsert z kv.1 kv.2) x

theorem merge_two_dicts_lookup (y : PyDict) (hy : dkeysNodup y) :
    ∀ (x : PyDict) (k : String),
      alookup (merge_two_dicts x y) k =
        match alookup y k with
        | some v => some v
        | none => alookup x k := by
  induction y with
  | nil => intro x k; simp [merge_two_dicts, alookup]
  | cons hd tl ih =>
    intro x k
    rcases hd with ⟨k1, v1⟩
    simp only [dkeysNodup, List.map_cons, List.nodup_cons] at hy
    have htl := ih hy.2 (ainsert x k1 v1) k
    show alookup (merge_two_dicts (ainsert x k1 v1) tl) k = _
    rw [htl]
    by_cases h1 : k1 = k
    · subst h1
      have : alookup tl k1 = none :=
        alookup_eq_none_of_not_mem tl k1 hy.1
      simp [alookup, this, alookup_ainsert]
    · simp [alookup, h1, alookup_ainsert]

/-! ### Embedded Python string operations

The core `String` functions of Lean do not reduce definitionally, so
the string methods the plugin calls (`lower`, `strip`, `replace`,
splitting) are embedded as structural functions over `List Char`,
mirroring CPython semantics on the inputs the plugin feeds them. -/

/-- Python `str.lower()` (the plugin only meets ASCII names). -/
def pyLower (s : String) : String :=
  ⟨s.data.map Char.toLower⟩

/-- The whitespace `str.strip()` removes. -/
def isPySpace (ch : Char) : Bool :=
  ch = ' ' || ch = '\t' || ch = '\n' || ch = '\r' || ch = '\x0b' || ch = '\x0c'

/-- Python `str.strip()`: whitespace removed from both ends. -/
def pyStrip (s : String) : String :=
  ⟨((s.data.dropWhile isPySpace).reverse.dropWhile isPySpace).reverse⟩

/-- Replacement of every non-overlapping occurrence of `old` (assumed
nonempty) left to right, fuelled by the input length so the recursion
is structural. -/
def replaceFuel (old new : List Char) : Nat → List Char → List Char
  | _, [] => []
  | 0, s => s
  | fuel + 1, ch :: rest =>
    if old.isPrefixOf (ch :: rest) then
      new ++ replaceFuel old new fuel (rest.drop (old.length - 1))
    else
      ch :: replaceFuel old new fuel rest

/-- Python `s.replace(old, new)`; the plugin only ever replaces with
`""` or `"_"`, and for an empty `old` with empty `new` CPython also
returns `s` unchanged. -/
def pyReplace (s old new : String) : String :=
  if old.data = [] then s
  else ⟨replaceFuel old.data new.data s.data.length s.data⟩

/-- Splitting a character list at every occurrence of `sep`
(Python `str.split(sep)` for a one-character separator). -/
def splitOnChar (sep : Char) : List Char → List (List Char)
  | [] => [[]]
  | ch :: rest =>
    let r := splitOnChar sep rest
    if ch = sep then [] :: r
    else match r with
      | [] => [[ch]]
      | hd :: tl => (ch :: hd) :: tl

/-! ### Config loader (`_load_exec_configs`, lines 236-322) -/

/-- `pathlib.Path(s).name`: the final path component. -/
def pathBaseName (s : String) : String :=
  ⟨((splitOnChar '/' s.data).filter (fun c => c ≠ [])).getLastD []⟩

/-- `pathlib.Path(s).suffix`: the extension of the final component,
with its dot; empty for extension-less or dot-leading names. -/
def pathSuffix (s : String) : String :=
  match splitOnChar '.' (pathBaseName s).data with
  | [] => ""
  | [_] => ""
  | c :: rest =>
    if c = [] ∧ rest.length = 1 then "" else ⟨'.' :: rest.getLastD []⟩

/-- Characters `urllib.parse` accepts inside a URL scheme. -/
def isSchemeChar (ch : Char) : Bool :=
  ch.isAlphanum || ch = '+' || ch = '-' || ch = '.'

/-- `urlparse(url).scheme`: the lowercased text before the first `:`
when it is a well-formed scheme (letter first, then letters, digits,
`+`, `-`, `.`), else the empty string. -/
def urlScheme (url : String) : String :=
  match splitOnChar ':' url.data with
  | c :: _ :: _ =>
    match c with
    | [] => ""
    | ch :: rest =>
      if ch.isAlpha && rest.all isSchemeChar then
        ⟨(ch :: rest).map Char.toLower⟩
      else ""
  | _ => ""

/-- The canonical command name the loader derives for an entry (lines
305-309): the `name` field if present, else the file-name component of
`bin_path`; then `name.lower().strip().replace(" ", "_")`. -/
def canonNameOf (loaded_config : PyDict) : String :=
  let base := match alookup loaded_config "name" with
    | some n => n
    | none => pathBaseName ((alookup loaded_config "bin_path").getD "")
  pyReplace (pyStrip (pyLower base)) " " "_"

/-- One element of the parsed config stream: either a mapping (a dict)
or a non-mapping value such as an `int`, on which the membership test
`'bin_path' in loaded_config` raises `TypeError`. -/
inductive ConfigItem where
  | entry (d : PyDict)
  | nonMapping
  deriving DecidableEq, Repr

/-- The Python exceptions the embedded loader code can raise. -/
inductive PyExc where
  | typeError
  | keyError
  deriving DecidableEq, Repr

/-- The name-keyed accumulating mapping `config_dict`. -/
abbrev ConfigDict := List (String × PyDict)

/-- The tail of the per-entry loop body, from line 304 on: reads
`loaded_config['bin_path']` (raising `KeyError` when the key is
absent), pops `name`, canonicalizes it, and inserts or shallow-merges
into `config_dict`. -/
def loadFinish (config_dict : ConfigDict) (loaded_config : PyDict) :
    Except PyExc ConfigDict :=
  match alookup loaded_config "bin_path" with
  | none => .error .keyError
  | some _ =>
    let name := canonNameOf loaded_config
    let cfg := aremove loaded_config "name"
    match alookup config_dict name with
    | none => .ok (ainsert config_dict name cfg)
    | some existing => .ok (ainsert config_dict name (merge_two_dicts existing cfg))

/-- One iteration of the per-entry loop (lines 278-317).  `dl` models
`_download_executable`: `.ok` is the local path of the downloaded
binary, `.error` stands for the caught `ValidationException` /
`HTTPError` (both make the loop `continue`).  Note the bad-scheme
branch (line 302) only logs and then falls through to line 304. -/
def loadStep (dl : String → String → Except Unit String)
    (config_dict : ConfigDict) : ConfigItem → Except PyExc ConfigDict
  | .nonMapping => .error .typeError
  | .entry loaded_config =>
    match alookup loaded_config "bin_path" with
    | some _ => loadFinish config_dict loaded_config
    | none =>
      match alookup loaded_config "url" with
      | none => .ok config_dict
      | some url =>
        match alookup loaded_config "name" with
        | none => .ok config_dict
        | some name =>
          if urlScheme (pyStrip url) = "http" ∨ urlScheme (pyStrip url) = "https" then
            match dl url name with
            | .error _ => .ok config_dict
            | .ok local_path =>
              loadFinish config_dict (ainsert loaded_config "bin_path" local_path)
          else
            loadFinish config_dict loaded_config

/-- The `for loaded_config in loaded_configs` loop inside the `try`. -/
def loadLoop (dl : String → String → Except Unit String)
    (config_dict : ConfigDict) : List ConfigItem → Except PyExc ConfigDict
  | [] => .ok config_dict
  | item :: rest =>
    match loadStep dl config_dict item with
    | .error e => .error e
    | .ok config_dict2 => loadLoop dl config_dict2 rest

/-- One config file handed to the loader: its path and the value its
reader produced.  `_read_yaml_config` / `_read_json_config` return the
parsed data when it is a list and `[]` otherwise, so `parsed = none`
models both a parse failure and a non-list top level. -/
structure ConfigFile where
  path : String
  parsed : Option (List ConfigItem)
  deriving Repr

/-- The entries one file contributes (lines 261-271): its parsed list
when the suffix is a recognized format, `[]` for unrecognized
suffixes. -/
def fileConfigs (f : ConfigFile) : List ConfigItem :=
  if pathSuffix f.path = ".yml" ∨ pathSuffix f.path = ".yaml" then f.parsed.getD []
  else if pathSuffix f.path = ".json" then f.parsed.getD []
  else []

/-- The `config_files` argument as the loader sees it: a list of
files, or a value on which `for config_file in config_files` itself
raises `TypeError` (line 261, outside the `try`). -/
inductive LoaderInput where
  | notIterable
  | files (fs : List ConfigFile)

/-- `_load_exec_configs`: chains every file's entries, then folds the
per-entry loop inside `try ... except TypeError`, which resets
`config_dict` to the empty dict.  Any other exception (`KeyError`)
escapes, as does the `TypeError` from a non-iterable argument. -/
def load_exec_configs (dl : String → String → Except Unit String) :
    LoaderInput → Except PyExc ConfigDict
  | .notIterable => .error .typeError
  | .files fs =>
    let loaded_configs := (fs.map fileConfigs).flatten
    match loadLoop dl [] loaded_configs with
    | .ok config_dict => .ok config_dict
    | .error .typeError => .ok []
    | .error e => .error e

theorem aremove_sublist {α : Type} (d : List (String × α)) (k : String) :
    List.Sublist (aremove d k) d := by
  induction d with
  | nil => simp [aremove]
  | cons hd tl ih =>
    rcases hd with ⟨k2, v2⟩
    by_cases h2 : k2 = k
    · simp only [aremove, h2, if_true]
      exact ih.trans (List.sublist_cons_self _ _)
    · simp only [aremove, h2, if_false]
      exact ih.cons₂ _

theorem dkeysNodup_aremove {α : Type} (d : List (String × α)) (k : String)
    (h : dkeysNodup d) : dkeysNodup (aremove d k) :=
  List.Nodup.sublist (List.Sublist.map Prod.fst (aremove_sublist d k)) h

theorem loadLoop_append (dl : String → String → Except Unit String)
    (acc : ConfigDict) (l1 l2 : List ConfigItem) :
    loadLoop dl acc (l1 ++ l2) =
      match loadLoop dl acc l1 with
      | .ok acc2 => loadLoop dl acc2 l2
      | .error e => .error e := by
  induction l1 generalizing acc with
  | nil => simp [loadLoop]
  | cons hd tl ih =>
    simp only [List.cons_append, loadLoop]
    cases hstep : loadStep dl acc hd with
    | error e => simp
    | ok acc2 => simp [ih]

/-- C2 evaluation: a config stream holding an entry with no `bin_path`
and an `ftp://` url (plus its `name`), followed by a well-formed
entry.  The bad-scheme branch only logs and falls through to the
`loaded_config['bin_path']` access, so the loader raises `KeyError`
instead of discarding the entry: the well-formed `/bin/echo` entry is
lost and no mapping is returned. -/
theorem load_exec_configs_bad_scheme_raises :
    load_exec_configs (fun _ _ => .error ())
      (.files [⟨"conf.json", some
        [.entry [("url", "ftp://example.com/tool"), ("name", "tool")],
         .entry [("bin_path", "/bin/echo")]]⟩]) = .error .keyError := by
  rfl

/-- C3: when two processed entries derive the same canonical name, the
loader binds that name to the shallow merge of the two (minus the
consumed `name` field): every other field present in the later entry
keeps the later value, a field only in the earlier entry keeps the
earlier value, and the load succeeds (the conflict is only logged). -/
theorem load_exec_configs_duplicate_merge
    (dl : String → String → Except Unit String) (e1 e2 : PyDict) (b1 b2 : String)
    (h1 : alookup e1 "bin_path" = some b1)
    (h2 : alookup e2 "bin_path" = some b2)
    (hnd : dkeysNodup e2)
    (hname : canonNameOf e1 = canonNameOf e2) :
    ∃ d : PyDict,
      load_exec_configs dl
          (.files [⟨"conf.json", some [.entry e1, .entry e2]⟩]) =
        .ok [(canonNameOf e2, d)] ∧
      (∀ k, k ≠ "name" →
        alookup d k = match alookup e2 k with
          | some v => some v
          | none => alookup e1 k) ∧
      alookup d "name" = none := by
  refine ⟨merge_two_dicts (aremove e1 "name") (aremove e2 "name"), ?_, ?_, ?_⟩
  · have hfile : ((([⟨"conf.json", some [.entry e1, .entry e2]⟩] :
        List ConfigFile).map fileConfigs)).flatten = [.entry e1, .entry e2] := rfl
    have hstep1 : loadStep dl [] (.entry e1) =
        .ok [(canonNameOf e1, aremove e1 "name")] := by
      simp only [loadStep, h1, loadFinish]
      simp [alookup, ainsert]
    have hstep2 : loadStep dl [(canonNameOf e1, aremove e1 "name")] (.entry e2) =
        .ok [(canonNameOf e2,
          merge_two_dicts (aremove e1 "name") (aremove e2 "name"))] := by
      simp only [loadStep, h2, loadFinish]
      simp [alookup, ainsert, hname]
    simp only [load_exec_configs, hfile]
    simp only [loadLoop, hstep1, hstep2]
  · intro k hk
    rw [merge_two_dicts_lookup (aremove e2 "name") (dkeysNodup_aremove e2 "name" hnd)]
    rw [alookup_aremove e1 "name" k hk, alookup_aremove e2 "name" k hk]
  · rw [merge_two_dicts_lookup (aremove e2 "name") (dkeysNodup_aremove e2 "name" hnd)]
    rw [alookup_aremove_self, alookup_aremove_self]

/-- C3 witness: file A entry `{bin_path: /bin/dd, help: "A"}` and file
B entry `{bin_path: /bin/dd, help: "B"}` collapse to one descriptor
whose `help` is `"B"` while `bin_path` is kept. -/
theorem load_exec_configs_duplicate_merge_witness :
    (alookup [("bin_path", "/bin/dd"), ("help", "A")] "bin_path" = some "/bin/dd" ∧
      alookup [("bin_path", "/bin/dd"), ("help", "B")] "bin_path" = some "/bin/dd" ∧
      dkeysNodup [("bin_path", "/bin/dd"), ("help", "B")] ∧
      canonNameOf [("bin_path", "/bin/dd"), ("help", "A")] =
        canonNameOf [("bin_path", "/bin/dd"), ("help", "B")]) ∧
    (∃ d : PyDict,
      load_exec_configs (fun _ _ => .error ())
          (.files [⟨"conf.json", some
            [.entry [("bin_path", "/bin/dd"), ("help", "A")],
             .entry [("bin_path", "/bin/dd"), ("help", "B")]]⟩]) =
        .ok [(canonNameOf [("bin_path", "/bin/dd"), ("help", "B")], d)] ∧
      (∀ k, k ≠ "name" →
        alookup d k = match alookup [("bin_path", "/bin/dd"), ("help", "B")] k with
          | some v => some v
          | none => alookup [("bin_path", "/bin/dd"), ("help", "A")] k) ∧
      alookup d "name" = none) := by
  refine ⟨⟨rfl, rfl, by decide, rfl⟩, ?_⟩
  exact load_exec_configs_duplicate_merge (fun _ _ => .error ())
    [("bin_path", "/bin/dd"), ("help", "A")]
    [("bin_path", "/bin/dd"), ("help", "B")]
    "/bin/dd" "/bin/dd" rfl rfl (by decide) rfl

/-- C9 counterexample: a non-iterable `config_files` argument hits the
`for config_file in config_files` loop (line 261), which sits outside
the `try`, so the `TypeError` propagates out of the loader instead of
yielding the empty mapping. -/
theorem load_exec_configs_not_iterable_raises :
    load_exec_configs (fun _ _ => .error ()) .notIterable = .error .typeError ∧
    load_exec_configs (fun _ _ => .error ()) .notIterable ≠
      .ok ([] : ConfigDict) := by
  refine ⟨rfl, ?_⟩
  intro h
  simp [load_exec_configs] at h

/-- C9 amended: the `TypeError` guard protects the iteration of the
parsed entry stream, not the `config_files` argument: whenever running
the per-entry loop over the chained entries raises `TypeError`, the
loader catches it and returns the empty mapping without raising. -/
theorem load_exec_configs_stream_typeerror
    (dl : String → String → Except Unit String) (fs : List ConfigFile)
    (h : loadLoop dl [] ((fs.map fileConfigs).flatten) = .error .typeError) :
    load_exec_configs dl (.files fs) = .ok [] := by
  simp only [load_exec_configs, h]

/-- C9 amended witness: a yaml file whose parsed list holds one
non-mapping element makes the entry loop raise `TypeError`, and the
loader returns the empty mapping. -/
theorem load_exec_configs_stream_typeerror_witness :
    loadLoop (fun _ _ => .error ()) []
        ((([⟨"c.yaml", some [ConfigItem.nonMapping]⟩] :
          List ConfigFile).map fileConfigs).flatten) = .error .typeError ∧
    load_exec_configs (fun _ _ => .error ())
        (.files [⟨"c.yaml", some [ConfigItem.nonMapping]⟩]) = .ok [] := by
  refine ⟨rfl, ?_⟩
  exact load_exec_configs_stream_typeerror (fun _ _ => .error ())
    [⟨"c.yaml", some [ConfigItem.nonMapping]⟩] rfl

/-- C10: a `TypeError` on a single entry partway through the stream (a
non-mapping list element) aborts the loop inside the `try`, and the
handler resets `config_dict` to the empty dict: every entry already
merged (the accumulator `acc` built from the prefix) is discarded and
the loader returns the empty mapping. -/
theorem load_exec_configs_typeerror_discards_all
    (dl : String → String → Except Unit String) (fs : List ConfigFile)
    (pre rest : List ConfigItem) (acc : ConfigDict)
    (hsplit : (fs.map fileConfigs).flatten =
      pre ++ ConfigItem.nonMapping :: rest)
    (hpre : loadLoop dl [] pre = .ok acc) :
    load_exec_configs dl (.files fs) = .ok [] := by
  have hloop : loadLoop dl [] ((fs.map fileConfigs).flatten) =
      .error .typeError := by
    rw [hsplit, loadLoop_append, hpre]
    simp [loadLoop, loadStep]
  simp only [load_exec_configs, hloop]

/-- C10 witness: a json file parsing to `[{bin_path: /bin/echo}, 5]`;
the first entry is merged, the `5` raises `TypeError`, and the whole
result is the empty mapping — the `/bin/echo` descriptor is gone. -/
theorem load_exec_configs_typeerror_discards_all_witness :
    ((([⟨"c.json", some [ConfigItem.entry [("bin_path", "/bin/echo")],
          ConfigItem.nonMapping]⟩] : List ConfigFile).map fileConfigs).flatten =
      [ConfigItem.entry [("bin_path", "/bin/echo")]] ++
        ConfigItem.nonMapping :: [] ∧
      loadLoop (fun _ _ => .error ()) []
          [ConfigItem.entry [("bin_path", "/bin/echo")]] =
        .ok [("echo", [("bin_path", "/bin/echo")])]) ∧
    load_exec_configs (fun _ _ => .error ())
        (.files [⟨"c.json", some [ConfigItem.entry [("bin_path", "/bin/echo")],
          ConfigItem.nonMapping]⟩]) = .ok [] := by
  refine ⟨⟨rfl, rfl⟩, ?_⟩
  exact load_exec_configs_typeerror_discards_all (fun _ _ => .error ())
    [⟨"c.json", some [ConfigItem.entry [("bin_path", "/bin/echo")],
      ConfigItem.nonMapping]⟩]
    [ConfigItem.entry [("bin_path", "/bin/echo")]] []
    [("echo", [("bin_path", "/bin/echo")])] rfl rfl

/-! ### Fetcher (`_download_executable`, lines 324-349) -/

/-- The final HTTP response `requests.get(url, allow_redirects=True,
stream=True)` produces: its status code, the numeric value of its
`content-length` header (`none` when the header is absent or empty,
which the code treats as falsy), and the body chunks
`iter_content(chunk_size=1024)` yields. -/
structure HttpResponse where
  status : Nat
  content_length : Option Nat
  chunks : List String
  deriving Repr

/-- The exceptions `_download_executable` can raise:
`requests.exceptions.HTTPError` out of `raise_for_status()`, and the
`ValidationException` for an oversized declared content length. -/
inductive DownloadErr where
  | httpError (status : Nat)
  | tooLarge
  deriving DecidableEq, Repr

/-- The files in the temp area: name, content, stat mode. -/
abbrev TempFiles := List (String × String × Nat)

/-- `open(filepath, "wb")` plus the chunk-writing loop: truncating
write, keeping the mode of an existing file and creating a fresh file
with mode `0o644`. -/
def fwrite : TempFiles → String → String → TempFiles
  | [], nm, content => [(nm, content, 420)]
  | (n2, c2, m2) :: rest, nm, content =>
    if n2 = nm then (nm, content, m2) :: rest
    else (n2, c2, m2) :: fwrite rest nm content

/-- `os.chmod(filepath, st.st_mode | S_IEXEC | S_IXGRP | S_IXOTH)`. -/
def fchmodExec : TempFiles → String → TempFiles
  | [], _ => []
  | (n2, c2, m2) :: rest, nm =>
    if n2 = nm then (n2, c2, m2 ||| (S_IEXEC ||| S_IXGRP ||| S_IXOTH)) :: rest
    else (n2, c2, m2) :: fchmodExec rest nm

/-- `_download_executable`: `raise_for_status()` first (an `HTTPError`
for any 4xx/5xx status), then the declared-length check against
`MAX_DOWNLOAD_SIZE`, and only then the streaming write (empty
keep-alive chunks skipped) followed by `chmod +x`.  The temp files are
threaded explicitly, so an error conveys that nothing was written. -/
def download_executable (max_download_size : Nat) (temp_path : String)
    (resp : HttpResponse) (filename : String) (files : TempFiles) :
    TempFiles × Except DownloadErr String :=
  if 400 ≤ resp.status ∧ resp.status < 600 then
    (files, .error (.httpError resp.status))
  else if (match resp.content_length with
      | some n => decide (max_download_size < n)
      | none => false) then
    (files, .error .tooLarge)
  else
    let filepath := temp_path ++ "/" ++ filename
    let content := String.join (resp.chunks.filter (fun c => c ≠ ""))
    let files1 := fwrite files filepath content
    (fchmodExec files1 filepath, .ok filepath)

/-- C7 counterexample: an HTTP `304` response is not 2xx, yet
`raise_for_status()` does not raise for it (it only raises on
4xx/5xx), so the fetch writes the body and succeeds instead of failing
with an HTTP error before writing: the claim's `non-2xx` clause is
false at this input. -/
theorem download_executable_304_writes :
    download_executable 100 "/tmp/e" ⟨304, none, ["file"]⟩ "testdl" [] =
      ([("/tmp/e/testdl", "file", 493)], .ok "/tmp/e/testdl") ∧
    ¬ (200 ≤ 304 ∧ 304 < 300) := by
  constructor
  · rfl
  · intro h
    omega

/-- C7 amended: `raise_for_status()` fails the fetch with an HTTP
error, before anything is written, exactly for statuses in 4xx/5xx;
for the remaining statuses, a declared `content-length` exceeding
`MAX_DOWNLOAD_SIZE` raises the too-large validation error, still
before writing any of the body. -/
theorem download_executable_guards (max_download_size : Nat)
    (temp_path : String) (resp : HttpResponse) (filename : String)
    (files : TempFiles) :
    (400 ≤ resp.status ∧ resp.status < 600 →
      download_executable max_download_size temp_path resp filename files =
        (files, .error (.httpError resp.status))) ∧
    (¬ (400 ≤ resp.status ∧ resp.status < 600) →
      ∀ n, resp.content_length = some n → max_download_size < n →
        download_executable max_download_size temp_path resp filename files =
          (files, .error .tooLarge)) := by
  constructor
  · intro h
    simp [download_executable, h]
  · intro h n hcl hn
    simp [download_executable, h, hcl, hn]

/-- C7 amended witness: a `404` fails with the HTTP error and writes
nothing; a `200` declaring 31 bytes against a 30-byte ceiling fails
with the too-large error and writes nothing. -/
theorem download_executable_guards_witness :
    download_executable 30 "/tmp/e" ⟨404, none, ["file"]⟩ "a" [] =
      ([], .error (.httpError 404)) ∧
    download_executable 30 "/tmp/e" ⟨200, some 31, ["file"]⟩ "a" [] =
      ([], .error .tooLarge) := by
  constructor
  · exact (download_executable_guards 30 "/tmp/e" ⟨404, none, ["file"]⟩ "a" []).1
      (by decide)
  · exact (download_executable_guards 30 "/tmp/e" ⟨200, some 31, ["file"]⟩
      "a" []).2 (by decide) 31 rfl (by decide)

/-! ### Executor (`_run_command`, lines 401-444) -/

/-- What `delegator.run(...)` does at spawn time: a spawned process
(with its pid and, after `block()`, its output and return code), a
`FileNotFoundError`, or another `OSError`. -/
inductive SpawnOutcome where
  | spawned (pid : Nat) (out : String) (return_code : Int)
  | fileNotFound
  | osError (msg : String)

/-- What `_run_command` sends back: since the function body contains
`yield`, it is a generator, and the early `return msg` statements end
it with that message while the happy path yields a sequence of
messages. -/
inductive RunResult where
  | earlyReturn (msg : String)
  | yields (msgs : List String)

/-- The registry of commands, `self.EXECUTABLE_CONFIGS`. -/
abbrev ExecConfigs := List (String × PyDict)

/-- Lines 415-417: the command name parsed from the message body,
`msg.body.replace(args, "")` then
`.replace(prefix, "").lower().strip().replace(" ", "_")`. -/
def command_name_of (bot_pfx msg_body args : String) : String :=
  let msg_without_args := pyReplace msg_body args ""
  pyReplace (pyStrip (pyLower (pyReplace msg_without_args bot_pfx "")))
    " " "_"

/-- Line 429: the entry's own `timeout` if set, else the global
`TIMEOUT` configuration value. -/
def timeout_of (executable_config : PyDict) (timeout_default : String) : String :=
  match alookup executable_config "timeout" with
  | some t => t
  | none => timeout_default

/-- `_run_command`: resolves the command name in
`EXECUTABLE_CONFIGS` (unknown names get a textual early return), then
spawns the binary with the user arguments; `FileNotFoundError` and
`OSError` are caught and turned into textual results, any other spawn
outcome acknowledges the pid and later yields output and return code.
`spawn` models `delegator.run` on the command line and timeout.  The
registry is threaded through unchanged — the function never writes to
it — so the pair's second component is the registry after the call. -/
def run_command (spawn : String → String → SpawnOutcome)
    (bot_pfx msg_body args : String) (configs : ExecConfigs)
    (timeout_default : String) : Except PyExc (RunResult × ExecConfigs) :=
  let command_name := command_name_of bot_pfx msg_body args
  match alookup configs command_name with
  | none =>
    .ok (.earlyReturn ("Unable to run your command " ++ command_name ++
      " because I am not able to find it in the plugins config."), configs)
  | some executable_config =>
    match alookup executable_config "bin_path" with
    | none => .error .keyError
    | some bin_path =>
      match spawn (bin_path ++ " " ++ args)
          (timeout_of executable_config timeout_default) with
      | .fileNotFound =>
        .ok (.earlyReturn ("Error: Executable not found at " ++ bin_path),
          configs)
      | .osError err =>
        .ok (.earlyReturn
          ("Error: Error received when running your command.\n" ++ err),
          configs)
      | .spawned pid out return_code =>
        .ok (.yields ["Started your command with PID " ++ toString pid,
          out, "Command RC: " ++ toString return_code], configs)

/-- C4: invoking a registered command (its config is found and, as for
every registered command, carries `bin_path`) whose spawn fails
returns a textual result instead of propagating the exception — the
`NotFound` text when the binary path does not exist at spawn time, the
execution-error text for other `OSError`s — and in every spawn outcome
the registry comes back unchanged, so other commands stay
dispatchable. -/
theorem run_command_spawn_failure (spawn : String → String → SpawnOutcome)
    (bot_pfx msg_body args timeout_default : String) (configs : ExecConfigs)
    (executable_config : PyDict) (bin_path : String)
    (hreg : alookup configs (command_name_of bot_pfx msg_body args) =
      some executable_config)
    (hbp : alookup executable_config "bin_path" = some bin_path) :
    (spawn (bin_path ++ " " ++ args)
        (timeout_of executable_config timeout_default) = .fileNotFound →
      run_command spawn bot_pfx msg_body args configs timeout_default =
        .ok (.earlyReturn ("Error: Executable not found at " ++ bin_path),
          configs)) ∧
    (∀ err, spawn (bin_path ++ " " ++ args)
        (timeout_of executable_config timeout_default) = .osError err →
      run_command spawn bot_pfx msg_body args configs timeout_default =
        .ok (.earlyReturn
          ("Error: Error received when running your command.\n" ++ err),
          configs)) ∧
    (∀ result cfgs2,
      run_command spawn bot_pfx msg_body args configs timeout_default =
        .ok (result, cfgs2) → cfgs2 = configs) := by
  refine ⟨?_, ?_, ?_⟩
  · intro hspawn
    simp only [run_command, hreg, hbp, hspawn]
  · intro err hspawn
    simp only [run_command, hreg, hbp, hspawn]
  · intro result cfgs2 h
    simp only [run_command, hreg, hbp] at h
    cases hspawn : spawn (bin_path ++ " " ++ args)
        (timeout_of executable_config timeout_default) <;>
      rw [hspawn] at h <;>
      simp only [Except.ok.injEq, Prod.mk.injEq] at h <;>
      exact h.2.symm

/-- C4 witness: the binary of `deleted_bin` is gone at spawn time; the
invocation returns the NotFound text and hands the registry back
unchanged, with the `other` command still registered. -/
theorem run_command_spawn_failure_witness :
    (alookup [("deleted_bin", [("bin_path", "/tmp/gone")]),
        ("other", [("bin_path", "/bin/ls")])]
      (command_name_of "!" "!deleted_bin -a" "-a") =
        some [("bin_path", "/tmp/gone")] ∧
      alookup [("bin_path", "/tmp/gone")] "bin_path" = some "/tmp/gone") ∧
    run_command (fun _ _ => SpawnOutcome.fileNotFound) "!" "!deleted_bin -a"
        "-a"
        [("deleted_bin", [("bin_path", "/tmp/gone")]),
          ("other", [("bin_path", "/bin/ls")])] "30" =
      .ok (.earlyReturn "Error: Executable not found at /tmp/gone",
        [("deleted_bin", [("bin_path", "/tmp/gone")]),
          ("other", [("bin_path", "/bin/ls")])]) := by
  refine ⟨⟨rfl, rfl⟩, ?_⟩
  exact (run_command_spawn_failure (fun _ _ => SpawnOutcome.fileNotFound)
    "!" "!deleted_bin -a" "-a" "30"
    [("deleted_bin", [("bin_path", "/tmp/gone")]),
      ("other", [("bin_path", "/bin/ls")])]
    [("bin_path", "/tmp/gone")] "/tmp/gone" rfl rfl).1 rfl

end ChatOpsAnything
